import Mathlib

/-!
CA resolution of `pkg/providers/ca.go`: a shallow embedding of
`IssuerProvider.GetCAs` and the properties of its results: which error each
early exit returns, which secret is looked up, and the validity window of the
certificates it hands back.

Conventions of the embedding:

* a Go `error` is `Option GoError`, `none` being the `nil` error;
* a returned `[]*x509.Certificate` is `Option (List Certificate)`, `none`
  being the `nil` slice;
* a Go function returning `(value, error)` is a pair, so that a collaborator
  may hand back a value together with a non-nil error, as Go allows;
* the collaborators that live outside the package (the key function of
  client-go, the pod namespace, the reader, the bundle decoder and the clock)
  are the fields of `World`; every theorem quantifies over all of them, the
  key function being any that returns the nil error where a claim speaks of
  every object, as that of client-go does;
* the calls made to `Reader.Get` and to `cert.ParseRootCAs` are recorded, in
  order, in the `calls` field of the outcome.
-/

namespace Providers

/-- An instant of `time.Time`, as a signed count of nanoseconds. `Before` and
`After` compare instants only, so the location plays no role. -/
abbrev Time := Int

/-- A byte slice. -/
abbrev Bytes := List Nat

/-- The fields of `x509.Certificate` that `GetCAs` reads, with the raw
encoding that tells two certificates apart. -/
structure Certificate where
  NotBefore : Time
  NotAfter : Time
  Raw : Bytes
deriving DecidableEq

/-- The type `client.ObjectKey`, a namespace and a name. -/
structure ObjectKey where
  Namespace : String
  Name : String
deriving DecidableEq

/-- The part of `corev1.Secret` that is read: the `Data` map, as an association
list looked up by key. -/
structure Secret where
  Data : List (String × Bytes)
deriving DecidableEq

/-- The type `cmapi.CAIssuer`, reduced to the secret name. -/
structure CAIssuer where
  SecretName : String
deriving DecidableEq

/-- The type `cmapi.IssuerSpec`, reduced to its `CA` pointer (`none` is
`nil`). -/
structure IssuerSpec where
  CA : Option CAIssuer
deriving DecidableEq

/-- A `client.Object`: its kind, namespace and name, and, when its dynamic
type implements `cmapi.GenericIssuer`, the spec that `GetSpec()` returns
(`none` when the type assertion fails). -/
structure Object where
  Kind : String
  Namespace : String
  Name : String
  genericIssuer : Option IssuerSpec
deriving DecidableEq

/-- An argument handed to `fmt.Errorf`. -/
inductive Arg where
  | str (s : String)
  | key (k : ObjectKey)
  | time (t : Time)
deriving DecidableEq

/-- A non-nil Go error: one built by `fmt.Errorf` in `GetCAs`, kept as the
format string with its arguments, or one that comes from a library. -/
inductive GoError where
  | errorf (format : String) (args : List Arg)
  | lib (msg : String)
deriving DecidableEq

/-- A call to a collaborator that `GetCAs` makes. -/
inductive Call where
  | readerGet (key : ObjectKey)
  | parseRootCAs (data : Bytes)
deriving DecidableEq

/-- Everything outside the package that `GetCAs` consults. -/
structure World where
  /-- The function `cache.MetaNamespaceKeyFunc`. -/
  MetaNamespaceKeyFunc : Object → String × Option GoError
  /-- The value of `meta.PodNamespace()`. -/
  PodNamespace : String
  /-- The method `c.Reader.Get`: the secret it fills in and its error. -/
  ReaderGet : ObjectKey → Secret × Option GoError
  /-- The function `cert.ParseRootCAs`, without its second result, which is
  discarded. -/
  ParseRootCAs : Bytes → List Certificate × Option GoError
  /-- The value of `time.Now()`. -/
  now : Time

/-- The two results of `GetCAs` and the calls it made. -/
structure Outcome where
  certs : Option (List Certificate)
  err : Option GoError
  calls : List Call
deriving DecidableEq

/-- The constant `corev1.TLSCertKey`. -/
def TLSCertKey : String := "tls.crt"

/-- The `secretRef` literal of `GetCAs` (lines 58-69): the namespace is the pod
namespace for the kind `ClusterIssuer` and the issuer's own namespace
otherwise; the name is the secret name of the CA spec. -/
def secretRef (w : World) (obj : Object) (ca : CAIssuer) : ObjectKey :=
  { Namespace := if obj.Kind = "ClusterIssuer" then w.PodNamespace else obj.Namespace
    Name := ca.SecretName }

/-- The loop over `caCerts` (lines 88-95): the error of the first certificate
that fails one of the two tests, `none` when the loop runs to its end. -/
def validityLoop (kind issuerKey : String) (now : Time) : List Certificate → Option GoError
  | [] => none
  | caCert :: rest =>
    if now < caCert.NotBefore then
      some (.errorf "%s %s points a CA cert not valid before %v, now: %s"
        [.str kind, .str issuerKey, .time caCert.NotBefore, .time now])
    else if now > caCert.NotAfter then
      some (.errorf "%s %s points a CA cert expired at %v, now: %s"
        [.str kind, .str issuerKey, .time caCert.NotAfter, .time now])
    else validityLoop kind issuerKey now rest

/-- The method `IssuerProvider.GetCAs`. -/
def GetCAs (w : World) (obj : Object) (_ : String) : Outcome :=
  let kind := obj.Kind
  let (issuerKey, err) := w.MetaNamespaceKeyFunc obj
  if err.isSome then ⟨none, err, []⟩ else
  match obj.genericIssuer with
  | none =>
    ⟨none, some (.errorf "%s %s is not a GenericIssuer" [.str kind, .str issuerKey]), []⟩
  | some issuer =>
    match issuer.CA with
    | none =>
      ⟨none, some (.errorf "%s %s does not have a CA" [.str kind, .str issuerKey]), []⟩
    | some ca =>
      let ref := secretRef w obj ca
      let (secret, err) := w.ReaderGet ref
      if err.isSome then ⟨none, err, [.readerGet ref]⟩ else
      let key := TLSCertKey
      match secret.Data.lookup key with
      | none =>
        ⟨none, some (.errorf "missing key %s in secret %s" [.str key, .key ref]),
          [.readerGet ref]⟩
      | some data =>
        let (caCerts, err) := w.ParseRootCAs data
        if err.isSome then ⟨none, err, [.readerGet ref, .parseRootCAs data]⟩ else
        if caCerts.length = 0 then
          ⟨none, some (.errorf "%s %s signing certificate is not a CA"
            [.str kind, .str issuerKey]), [.readerGet ref, .parseRootCAs data]⟩
        else
          match validityLoop kind issuerKey w.now caCerts with
          | some e => ⟨none, some e, [.readerGet ref, .parseRootCAs data]⟩
          | none => ⟨some caCerts, err, [.readerGet ref, .parseRootCAs data]⟩

/-- The keys handed to `Reader.Get`, in call order. -/
def reads : List Call → List ObjectKey
  | [] => []
  | .readerGet k :: rest => k :: reads rest
  | .parseRootCAs _ :: rest => reads rest

/-- The payloads handed to `cert.ParseRootCAs`, in call order. -/
def parses : List Call → List Bytes
  | [] => []
  | .readerGet _ :: rest => parses rest
  | .parseRootCAs d :: rest => d :: parses rest

/-- A certificate is inside its window at `now`, both bounds included. -/
def inWindow (now : Time) (c : Certificate) : Prop :=
  c.NotBefore ≤ now ∧ now ≤ c.NotAfter

instance (now : Time) (c : Certificate) : Decidable (inWindow now c) := by
  unfold inWindow; infer_instance

/-- Modelled from the spec: the key function `cache.MetaNamespaceKeyFunc` of
client-go, whose code lies outside this package. For a `client.Object`, which
always carries its metadata, it returns the namespace/name composite, the name
alone when the namespace is empty, with the nil error. -/
def MetaNamespaceKeyFunc (obj : Object) : String × Option GoError :=
  (if obj.Namespace = "" then obj.Name else obj.Namespace ++ "/" ++ obj.Name, none)

/-! ## A sample world -/


/-- A certificate valid from 0 to 100. -/
def certA : Certificate := { NotBefore := 0, NotAfter := 100, Raw := [1] }
/-- A certificate whose two bounds are the instant 50. -/
def certB : Certificate := { NotBefore := 50, NotAfter := 50, Raw := [2] }
/-- A certificate that expired at 10. -/
def certOld : Certificate := { NotBefore := 0, NotAfter := 10, Raw := [3] }

/-- A store with four secrets in the namespace `cert-manager` and one in
`default`; every other key is not found. -/
def sampleGet (k : ObjectKey) : Secret × Option GoError :=
  if k = ⟨"cert-manager", "root-ca"⟩ then (⟨[("tls.key", [9]), ("tls.crt", [1, 2])]⟩, none)
  else if k = ⟨"cert-manager", "no-crt"⟩ then (⟨[("tls.key", [9])]⟩, none)
  else if k = ⟨"cert-manager", "empty"⟩ then (⟨[("tls.crt", [])]⟩, none)
  else if k = ⟨"cert-manager", "bad"⟩ then (⟨[("tls.crt", [7])]⟩, none)
  else if k = ⟨"cert-manager", "stale"⟩ then (⟨[("tls.crt", [1, 3])]⟩, none)
  else if k = ⟨"default", "root-ca"⟩ then (⟨[("tls.crt", [1])]⟩, none)
  else (⟨[]⟩, some (.lib "not found"))

/-- A decoder of the sample payloads. -/
def sampleParse (data : Bytes) : List Certificate × Option GoError :=
  if data = [1, 2] then ([certA, certB], none)
  else if data = [1, 3] then ([certA, certOld], none)
  else if data = [1] then ([certA], none)
  else if data = [] then ([], none)
  else ([], some (.lib "malformed"))

/-- The sample collaborators, read at the instant 50 from the pod namespace
`cert-manager`. -/
def sampleWorld : World :=
  { MetaNamespaceKeyFunc := MetaNamespaceKeyFunc
    PodNamespace := "cert-manager"
    ReaderGet := sampleGet
    ParseRootCAs := sampleParse
    now := 50 }

/-- An issuer of the namespace `default` with a CA reference. -/
def namespacedIssuer (secretName : String) : Object :=
  { Kind := "Issuer", Namespace := "default", Name := "ca-issuer"
    genericIssuer := some ⟨some ⟨secretName⟩⟩ }

/-- An issuer without a CA reference. -/
def acmeIssuer : Object :=
  { Kind := "Issuer", Namespace := "default", Name := "acme", genericIssuer := some ⟨none⟩ }

/-- An issuer without a CA reference and without a name. -/
def unnamedAcmeIssuer : Object :=
  { Kind := "Issuer", Namespace := "default", Name := "", genericIssuer := some ⟨none⟩ }

/-- An issuer with a CA reference and without a name. -/
def unnamedIssuer : Object :=
  { Kind := "Issuer", Namespace := "default", Name := "", genericIssuer := some ⟨some ⟨"root-ca"⟩⟩ }

/-- An object that is no issuer and has no name. -/
def unnamedConfigMap : Object :=
  { Kind := "ConfigMap", Namespace := "default", Name := "", genericIssuer := none }

/-- An object that is no issuer. -/
def configMap : Object :=
  { Kind := "ConfigMap", Namespace := "default", Name := "settings", genericIssuer := none }

/-- A cluster issuer with a CA reference. -/
def clusterIssuer (secretName : String) : Object :=
  { Kind := "ClusterIssuer", Namespace := "", Name := "ca-issuer"
    genericIssuer := some ⟨some ⟨secretName⟩⟩ }


/-! ## The loop and the paths of a run -/

/-- The loop runs to its end exactly when every certificate is inside its
window. -/
theorem validityLoop_eq_none_iff (kind issuerKey : String) (now : Time) (cs : List Certificate) :
    validityLoop kind issuerKey now cs = none ↔ ∀ c ∈ cs, inWindow now c := by
  induction cs with
  | nil => simp [validityLoop]
  | cons c rest ih =>
    unfold validityLoop
    by_cases h1 : now < c.NotBefore
    · simp [h1, inWindow]
    · by_cases h2 : now > c.NotAfter
      · simp [h1, h2, inWindow]
      · simp only [h1, h2, if_false, ih, List.mem_cons, forall_eq_or_imp, inWindow]
        constructor
        · intro h; exact ⟨⟨not_lt.mp h1, not_lt.mp h2⟩, h⟩
        · intro h; exact h.2

/-- Certificates inside their windows at the head of the bundle are passed
over. -/
theorem validityLoop_append (kind issuerKey : String) (now : Time) (pre rest : List Certificate)
    (hpre : ∀ p ∈ pre, inWindow now p) :
    validityLoop kind issuerKey now (pre ++ rest) = validityLoop kind issuerKey now rest := by
  induction pre with
  | nil => rfl
  | cons p ps ih =>
    have hp := hpre p (List.mem_cons_self _ _)
    have h1 : ¬ now < p.NotBefore := not_lt.mpr hp.1
    have h2 : ¬ now > p.NotAfter := not_lt.mpr hp.2
    rw [List.cons_append, validityLoop]
    simp only [h1, h2, if_false]
    exact ih (fun q hq => hpre q (List.mem_cons_of_mem _ hq))

/-- The body of `GetCAs` from line 79 on, once the payload `data` has been read. -/
theorem GetCAs_of_data (w : World) (obj : Object) (s : String) (spec : IssuerSpec)
    (ca : CAIssuer) (data : Bytes)
    (hkey : (w.MetaNamespaceKeyFunc obj).2 = none)
    (hissuer : obj.genericIssuer = some spec) (hca : spec.CA = some ca)
    (hget : (w.ReaderGet (secretRef w obj ca)).2 = none)
    (hdata : (w.ReaderGet (secretRef w obj ca)).1.Data.lookup TLSCertKey = some data) :
    GetCAs w obj s =
      if (w.ParseRootCAs data).2.isSome then
        ⟨none, (w.ParseRootCAs data).2, [.readerGet (secretRef w obj ca), .parseRootCAs data]⟩
      else if (w.ParseRootCAs data).1.length = 0 then
        ⟨none, some (.errorf "%s %s signing certificate is not a CA"
          [.str obj.Kind, .str (w.MetaNamespaceKeyFunc obj).1]),
          [.readerGet (secretRef w obj ca), .parseRootCAs data]⟩
      else
        match validityLoop obj.Kind (w.MetaNamespaceKeyFunc obj).1 w.now (w.ParseRootCAs data).1 with
        | some e => ⟨none, some e, [.readerGet (secretRef w obj ca), .parseRootCAs data]⟩
        | none => ⟨some (w.ParseRootCAs data).1, none,
            [.readerGet (secretRef w obj ca), .parseRootCAs data]⟩ := by
  rcases hk : w.MetaNamespaceKeyFunc obj with ⟨issuerKey, kerr⟩
  rcases hg : w.ReaderGet (secretRef w obj ca) with ⟨secret, gerr⟩
  rcases hp : w.ParseRootCAs data with ⟨caCerts, perr⟩
  rw [hk] at hkey
  rw [hg] at hget hdata
  simp only at hkey hget hdata
  subst hkey hget
  cases perr <;> simp [GetCAs, hk, hissuer, hca, hg, hdata, hp]

/-- A run that calls the decoder has passed every earlier exit. -/
theorem path_of_parse_called (w : World) (obj : Object) (s : String) (data : Bytes)
    (h : Call.parseRootCAs data ∈ (GetCAs w obj s).calls) :
    ∃ spec ca, (w.MetaNamespaceKeyFunc obj).2 = none ∧ obj.genericIssuer = some spec ∧
      spec.CA = some ca ∧ (w.ReaderGet (secretRef w obj ca)).2 = none ∧
      (w.ReaderGet (secretRef w obj ca)).1.Data.lookup TLSCertKey = some data := by
  rcases hk : w.MetaNamespaceKeyFunc obj with ⟨issuerKey, kerr⟩
  cases kerr with
  | some e => simp [GetCAs, hk] at h
  | none =>
    cases hi : obj.genericIssuer with
    | none => simp [GetCAs, hk, hi] at h
    | some spec =>
      cases hc : spec.CA with
      | none => simp [GetCAs, hk, hi, hc] at h
      | some ca =>
        rcases hg : w.ReaderGet (secretRef w obj ca) with ⟨secret, gerr⟩
        cases gerr with
        | some e => simp [GetCAs, hk, hi, hc, hg] at h
        | none =>
          cases hd : secret.Data.lookup TLSCertKey with
          | none => simp [GetCAs, hk, hi, hc, hg, hd] at h
          | some d =>
            rcases hp : w.ParseRootCAs d with ⟨caCerts, perr⟩
            have hdd : data = d := by
              simp only [GetCAs, hk, hi, hc, hg, hd, hp] at h
              cases perr <;> simp at h
              · split at h
                · simpa using h
                · split at h <;> simpa using h
              · exact h
            subst hdd
            exact ⟨spec, ca, rfl, rfl, hc, by rw [hg], by rw [hg]; exact hd⟩

/-- A run that calls the reader has passed every earlier exit, and the key it
hands over is `secretRef`. -/
theorem path_of_get_called (w : World) (obj : Object) (s : String) (k : ObjectKey)
    (h : Call.readerGet k ∈ (GetCAs w obj s).calls) :
    ∃ spec ca, (w.MetaNamespaceKeyFunc obj).2 = none ∧ obj.genericIssuer = some spec ∧
      spec.CA = some ca ∧ k = secretRef w obj ca := by
  rcases hk : w.MetaNamespaceKeyFunc obj with ⟨issuerKey, kerr⟩
  cases kerr with
  | some e => simp [GetCAs, hk] at h
  | none =>
    cases hi : obj.genericIssuer with
    | none => simp [GetCAs, hk, hi] at h
    | some spec =>
      cases hc : spec.CA with
      | none => simp [GetCAs, hk, hi, hc] at h
      | some ca =>
        refine ⟨spec, ca, rfl, rfl, hc, ?_⟩
        rcases hg : w.ReaderGet (secretRef w obj ca) with ⟨secret, gerr⟩
        cases gerr with
        | some e => simpa [GetCAs, hk, hi, hc, hg] using h
        | none =>
          cases hd : secret.Data.lookup TLSCertKey with
          | none => simpa [GetCAs, hk, hi, hc, hg, hd] using h
          | some d =>
            rcases hp : w.ParseRootCAs d with ⟨caCerts, perr⟩
            simp only [GetCAs, hk, hi, hc, hg, hd, hp] at h
            cases perr <;> simp at h
            · split at h
              · simpa using h
              · split at h <;> simpa using h
            · exact h

/-- The run whose fetch returns an error. -/
theorem GetCAs_of_fetch_error (w : World) (obj : Object) (s : String) (spec : IssuerSpec)
    (ca : CAIssuer) (e : GoError)
    (hkey : (w.MetaNamespaceKeyFunc obj).2 = none)
    (hissuer : obj.genericIssuer = some spec) (hca : spec.CA = some ca)
    (hget : (w.ReaderGet (secretRef w obj ca)).2 = some e) :
    GetCAs w obj s = ⟨none, some e, [.readerGet (secretRef w obj ca)]⟩ := by
  rcases hk : w.MetaNamespaceKeyFunc obj with ⟨issuerKey, kerr⟩
  rcases hg : w.ReaderGet (secretRef w obj ca) with ⟨secret, gerr⟩
  rw [hk] at hkey
  rw [hg] at hget
  simp only at hkey hget
  subst hkey hget
  simp [GetCAs, hk, hissuer, hca, hg]

/-- The run that finds no entry under `tls.crt`. -/
theorem GetCAs_of_missing_key (w : World) (obj : Object) (s : String) (spec : IssuerSpec)
    (ca : CAIssuer)
    (hkey : (w.MetaNamespaceKeyFunc obj).2 = none)
    (hissuer : obj.genericIssuer = some spec) (hca : spec.CA = some ca)
    (hget : (w.ReaderGet (secretRef w obj ca)).2 = none)
    (hdata : (w.ReaderGet (secretRef w obj ca)).1.Data.lookup TLSCertKey = none) :
    GetCAs w obj s =
      ⟨none, some (.errorf "missing key %s in secret %s"
        [.str TLSCertKey, .key (secretRef w obj ca)]), [.readerGet (secretRef w obj ca)]⟩ := by
  rcases hk : w.MetaNamespaceKeyFunc obj with ⟨issuerKey, kerr⟩
  rcases hg : w.ReaderGet (secretRef w obj ca) with ⟨secret, gerr⟩
  rw [hk] at hkey
  rw [hg] at hget hdata
  simp only at hkey hget hdata
  subst hkey hget
  simp [GetCAs, hk, hissuer, hca, hg, hdata]

/-- Every run ends in one of two ways: an error with the nil slice, or the nil
error with the decoded bundle, which is then non-empty and passed the loop. -/
theorem GetCAs_cases (w : World) (obj : Object) (s : String) :
    ((∃ e, (GetCAs w obj s).err = some e) ∧ (GetCAs w obj s).certs = none) ∨
    ((GetCAs w obj s).err = none ∧
      ∃ data, Call.parseRootCAs data ∈ (GetCAs w obj s).calls ∧
        (w.ParseRootCAs data).2 = none ∧ (w.ParseRootCAs data).1 ≠ [] ∧
        validityLoop obj.Kind (w.MetaNamespaceKeyFunc obj).1 w.now (w.ParseRootCAs data).1 = none ∧
        (GetCAs w obj s).certs = some (w.ParseRootCAs data).1) := by
  rcases hk : w.MetaNamespaceKeyFunc obj with ⟨issuerKey, kerr⟩
  cases kerr with
  | some e => left; simp [GetCAs, hk]
  | none =>
    cases hi : obj.genericIssuer with
    | none => left; simp [GetCAs, hk, hi]
    | some spec =>
      cases hc : spec.CA with
      | none => left; simp [GetCAs, hk, hi, hc]
      | some ca =>
        rcases hg : w.ReaderGet (secretRef w obj ca) with ⟨secret, gerr⟩
        cases gerr with
        | some e => left; simp [GetCAs, hk, hi, hc, hg]
        | none =>
          cases hd : secret.Data.lookup TLSCertKey with
          | none => left; simp [GetCAs, hk, hi, hc, hg, hd]
          | some d =>
            have hrun := GetCAs_of_data w obj s spec ca d (by rw [hk]) hi hc (by rw [hg])
              (by rw [hg]; exact hd)
            rw [hk] at hrun
            rw [hrun]
            rcases hp : w.ParseRootCAs d with ⟨caCerts, perr⟩
            cases perr with
            | some e => left; simp
            | none =>
              by_cases hlen : caCerts.length = 0
              · left; simp [hlen]
              · cases hv : validityLoop obj.Kind issuerKey w.now caCerts with
                | some e => left; simp [hlen, hv]
                | none =>
                  right
                  have hne : caCerts ≠ [] := fun h0 => hlen (by simp [h0])
                  simp [hlen, hv, hp, hne]

/-! ## The claims -/

/-- C1: when `GetCAs` returns the nil error, every certificate of the returned
sequence has `NotBefore <= now <= NotAfter`, both bounds included. -/
theorem GetCAs_success_in_window (w : World) (obj : Object) (s : String)
    (h : (GetCAs w obj s).err = none) :
    ∃ cs, (GetCAs w obj s).certs = some cs ∧
      ∀ c ∈ cs, c.NotBefore ≤ w.now ∧ w.now ≤ c.NotAfter := by
  rcases GetCAs_cases w obj s with ⟨⟨e, he⟩, _⟩ | ⟨_, data, _, _, _, hloop, hcerts⟩
  · rw [h] at he; cases he
  · exact ⟨_, hcerts, (validityLoop_eq_none_iff _ _ _ _).mp hloop⟩

/-- The witness of C1: the second certificate of the returned bundle has both
bounds equal to `now`. -/
theorem GetCAs_success_in_window_witness :
    (GetCAs sampleWorld (clusterIssuer "root-ca") "").err = none ∧
    (GetCAs sampleWorld (clusterIssuer "root-ca") "").certs = some [certA, certB] ∧
    certB.NotBefore = sampleWorld.now ∧ certB.NotAfter = sampleWorld.now ∧
    ∃ cs, (GetCAs sampleWorld (clusterIssuer "root-ca") "").certs = some cs ∧
      ∀ c ∈ cs, c.NotBefore ≤ sampleWorld.now ∧ sampleWorld.now ≤ c.NotAfter :=
  ⟨by decide, by decide, by decide, by decide,
    GetCAs_success_in_window sampleWorld (clusterIssuer "root-ca") "" (by decide)⟩

/-- C2: for a `GenericIssuer` with a CA spec whose secret fetch is made and
succeeds, whose secret has the key `tls.crt`, and whose payload the decoder
turns into a list `L` of at least one certificate, all inside their windows,
`GetCAs` returns the nil error and exactly `L`. -/
theorem GetCAs_returns_bundle (w : World) (obj : Object) (s : String) (spec : IssuerSpec)
    (ca : CAIssuer) (secret : Secret) (data : Bytes) (L : List Certificate)
    (hissuer : obj.genericIssuer = some spec) (hca : spec.CA = some ca)
    (hfetch : Call.readerGet (secretRef w obj ca) ∈ (GetCAs w obj s).calls)
    (hget : w.ReaderGet (secretRef w obj ca) = (secret, none))
    (hdata : secret.Data.lookup "tls.crt" = some data)
    (hparse : w.ParseRootCAs data = (L, none))
    (hN : 1 ≤ L.length)
    (hvalid : ∀ c ∈ L, c.NotBefore ≤ w.now ∧ w.now ≤ c.NotAfter) :
    (GetCAs w obj s).err = none ∧ (GetCAs w obj s).certs = some L := by
  obtain ⟨_, _, hkey, _, _, _⟩ := path_of_get_called w obj s _ hfetch
  have hrun := GetCAs_of_data w obj s spec ca data hkey hissuer hca (by rw [hget])
    (by rw [hget]; exact hdata)
  have hloop := (validityLoop_eq_none_iff obj.Kind (w.MetaNamespaceKeyFunc obj).1 w.now L).mpr
    hvalid
  have hlen : L.length ≠ 0 := by omega
  rw [hrun, hparse]
  simp [hlen, hloop]

/-- The witness of C2: the two certificates of the sample bundle come back in
payload order. -/
theorem GetCAs_returns_bundle_witness :
    (GetCAs sampleWorld (clusterIssuer "root-ca") "").err = none ∧
    (GetCAs sampleWorld (clusterIssuer "root-ca") "").certs = some [certA, certB] :=
  GetCAs_returns_bundle sampleWorld (clusterIssuer "root-ca") "" ⟨some ⟨"root-ca"⟩⟩ ⟨"root-ca"⟩
    ⟨[("tls.key", [9]), ("tls.crt", [1, 2])]⟩ [1, 2] [certA, certB]
    rfl rfl (by decide) (by decide) (by decide) (by decide) (by decide) (by decide)

/-- C3: the validity check is all-or-nothing. For a bundle `L` that the decoder
returned without error in a run that reached it: if some certificate of `L` is
outside its window, `GetCAs` returns the nil slice and an error; the error is
that of the first certificate outside its window, the not-yet-valid error with
its `NotBefore` when `now < NotBefore` and the expired error with its `NotAfter`
otherwise, each with `now`; and a bundle of a valid certificate followed by an
expired one fails with the expired error of the second. -/
theorem GetCAs_all_or_nothing (w : World) (obj : Object) (s : String) (data : Bytes)
    (L : List Certificate)
    (hreach : Call.parseRootCAs data ∈ (GetCAs w obj s).calls)
    (hparse : w.ParseRootCAs data = (L, none)) :
    ((∃ c ∈ L, w.now < c.NotBefore ∨ w.now > c.NotAfter) →
      (GetCAs w obj s).certs = none ∧ ∃ e, (GetCAs w obj s).err = some e) ∧
    (∀ pre c post, L = pre ++ c :: post →
      (∀ p ∈ pre, p.NotBefore ≤ w.now ∧ w.now ≤ p.NotAfter) →
      (w.now < c.NotBefore ∨ w.now > c.NotAfter) →
      (GetCAs w obj s).certs = none ∧
      (GetCAs w obj s).err = some (
        if w.now < c.NotBefore then
          .errorf "%s %s points a CA cert not valid before %v, now: %s"
            [.str obj.Kind, .str (w.MetaNamespaceKeyFunc obj).1, .time c.NotBefore, .time w.now]
        else
          .errorf "%s %s points a CA cert expired at %v, now: %s"
            [.str obj.Kind, .str (w.MetaNamespaceKeyFunc obj).1, .time c.NotAfter, .time w.now])) ∧
    (∀ c₁ c₂, L = [c₁, c₂] → (c₁.NotBefore ≤ w.now ∧ w.now ≤ c₁.NotAfter) →
      c₂.NotBefore ≤ w.now → w.now > c₂.NotAfter →
      (GetCAs w obj s).certs = none ∧
      (GetCAs w obj s).err = some (.errorf "%s %s points a CA cert expired at %v, now: %s"
        [.str obj.Kind, .str (w.MetaNamespaceKeyFunc obj).1, .time c₂.NotAfter, .time w.now])) := by
  obtain ⟨spec, ca, hkey, hissuer, hca, hget, hdata⟩ := path_of_parse_called w obj s data hreach
  have hrun := GetCAs_of_data w obj s spec ca data hkey hissuer hca hget hdata
  rw [hparse] at hrun
  simp only [Option.isSome_none, Bool.false_eq_true, if_false] at hrun
  have hfirst : ∀ pre c post, L = pre ++ c :: post →
      (∀ p ∈ pre, p.NotBefore ≤ w.now ∧ w.now ≤ p.NotAfter) →
      (w.now < c.NotBefore ∨ w.now > c.NotAfter) →
      (GetCAs w obj s).certs = none ∧
      (GetCAs w obj s).err = some (
        if w.now < c.NotBefore then
          .errorf "%s %s points a CA cert not valid before %v, now: %s"
            [.str obj.Kind, .str (w.MetaNamespaceKeyFunc obj).1, .time c.NotBefore, .time w.now]
        else
          .errorf "%s %s points a CA cert expired at %v, now: %s"
            [.str obj.Kind, .str (w.MetaNamespaceKeyFunc obj).1, .time c.NotAfter, .time w.now]) := by
    intro pre c post hL hpre hc
    have hlen : L.length ≠ 0 := by rw [hL]; simp
    have hloop : validityLoop obj.Kind (w.MetaNamespaceKeyFunc obj).1 w.now L = some (
        if w.now < c.NotBefore then
          .errorf "%s %s points a CA cert not valid before %v, now: %s"
            [.str obj.Kind, .str (w.MetaNamespaceKeyFunc obj).1, .time c.NotBefore, .time w.now]
        else
          .errorf "%s %s points a CA cert expired at %v, now: %s"
            [.str obj.Kind, .str (w.MetaNamespaceKeyFunc obj).1, .time c.NotAfter, .time w.now]) := by
      rw [hL, validityLoop_append _ _ _ _ _ hpre, validityLoop]
      by_cases h1 : w.now < c.NotBefore
      · simp [h1]
      · have h2 : w.now > c.NotAfter := hc.resolve_left h1
        simp [h1, h2]
    rw [hrun]
    simp only [hlen, if_false, hloop, and_self]
  refine ⟨?_, hfirst, ?_⟩
  · rintro ⟨c, hcL, hc⟩
    have hlen : L.length ≠ 0 := by
      intro h0
      rw [List.length_eq_zero] at h0
      rw [h0] at hcL
      cases hcL
    cases hloop : validityLoop obj.Kind (w.MetaNamespaceKeyFunc obj).1 w.now L with
    | none =>
      have hw := (validityLoop_eq_none_iff _ _ _ _).mp hloop c hcL
      rcases hc with hc | hc
      · exact absurd hw.1 (not_le.mpr hc)
      · exact absurd hw.2 (not_le.mpr hc)
    | some e =>
      rw [hrun]
      simp [hlen, hloop]
  · intro c₁ c₂ hL h₁ h₂ h₃
    have := hfirst [c₁] c₂ [] (by simpa using hL) (by simpa using h₁) (Or.inr h₃)
    simpa [not_lt.mpr h₂] using this

/-- The witness of C3: a valid certificate followed by one that expired at 10,
read at 50. -/
theorem GetCAs_all_or_nothing_witness :
    (GetCAs sampleWorld (clusterIssuer "stale") "").certs = none ∧
    (GetCAs sampleWorld (clusterIssuer "stale") "").err =
      some (.errorf "%s %s points a CA cert expired at %v, now: %s"
        [.str "ClusterIssuer", .str "ca-issuer", .time 10, .time 50]) :=
  (GetCAs_all_or_nothing sampleWorld (clusterIssuer "stale") "" [1, 3] [certA, certOld]
    (by decide) (by decide)).2.2 certA certOld rfl (by decide) (by decide) (by decide)

/-- C10: the two results of `GetCAs` exclude each other: either the error is
nil and the returned sequence is non-empty, or the error is non-nil and the
returned sequence is nil; a run that returns a sequence, which only the final
`return caCerts, err` does, returns the nil error with it, `err` being the
decoder's error, already found nil. -/
theorem GetCAs_results_exclusive (w : World) (obj : Object) (s : String) :
    (((GetCAs w obj s).err = none ∧ ∃ cs, (GetCAs w obj s).certs = some cs ∧ cs ≠ []) ∨
      ((∃ e, (GetCAs w obj s).err = some e) ∧ (GetCAs w obj s).certs = none)) ∧
    (∀ cs, (GetCAs w obj s).certs = some cs →
      (GetCAs w obj s).err = none ∧
      ∃ data, Call.parseRootCAs data ∈ (GetCAs w obj s).calls ∧
        w.ParseRootCAs data = (cs, none)) := by
  rcases GetCAs_cases w obj s with ⟨he, hc⟩ | ⟨he, data, hcall, hperr, hne, _, hcerts⟩
  · refine ⟨Or.inr ⟨he, hc⟩, ?_⟩
    intro cs hcs
    rw [hc] at hcs
    cases hcs
  · refine ⟨Or.inl ⟨he, _, hcerts, hne⟩, ?_⟩
    intro cs hcs
    rw [hcerts] at hcs
    cases hcs
    exact ⟨he, data, hcall, Prod.ext rfl hperr⟩

/-- The witness of C10: the sample run that returns a bundle returns the nil
error with it. -/
theorem GetCAs_results_exclusive_witness :
    (GetCAs sampleWorld (clusterIssuer "root-ca") "").err = none ∧
    ∃ data, Call.parseRootCAs data ∈ (GetCAs sampleWorld (clusterIssuer "root-ca") "").calls ∧
      sampleWorld.ParseRootCAs data = ([certA, certB], none) :=
  (GetCAs_results_exclusive sampleWorld (clusterIssuer "root-ca") "").2 [certA, certB]
    (by decide)

/-- The reads of a run for an issuer with a CA reference: none when the key
function failed, and the one of `secretRef` otherwise. -/
theorem reads_GetCAs_of_issuer (w : World) (obj : Object) (s : String) (spec : IssuerSpec)
    (ca : CAIssuer) (hissuer : obj.genericIssuer = some spec) (hca : spec.CA = some ca) :
    reads (GetCAs w obj s).calls =
      if (w.MetaNamespaceKeyFunc obj).2.isSome then [] else [secretRef w obj ca] := by
  rcases hk : w.MetaNamespaceKeyFunc obj with ⟨issuerKey, kerr⟩
  cases kerr with
  | some e => simp [GetCAs, hk, reads]
  | none =>
    rcases hg : w.ReaderGet (secretRef w obj ca) with ⟨secret, gerr⟩
    cases gerr with
    | some e => simp [GetCAs, hk, hissuer, hca, hg, reads]
    | none =>
      cases hd : secret.Data.lookup TLSCertKey with
      | none => simp [GetCAs, hk, hissuer, hca, hg, hd, reads]
      | some d =>
        have hrun := GetCAs_of_data w obj s spec ca d (by rw [hk]) hissuer hca (by rw [hg])
          (by rw [hg]; exact hd)
        rw [hrun]
        split
        · simp [reads]
        · split
          · simp [reads]
          · split <;> simp [reads]

/-- C4: for a `GenericIssuer` with a CA spec, `GetCAs` issues at most one
lookup, and exactly one when the key function returned the nil error; its key
is the pod namespace with the CA secret name for the kind `ClusterIssuer`,
whatever the namespace of the issuer, and the issuer's own namespace with the
CA secret name for every other kind, whatever the pod namespace. -/
theorem secret_lookup_key (w : World) (obj : Object) (s : String) (spec : IssuerSpec)
    (ca : CAIssuer) (hissuer : obj.genericIssuer = some spec) (hca : spec.CA = some ca) :
    (reads (GetCAs w obj s).calls = [] ∨
      reads (GetCAs w obj s).calls =
        [⟨if obj.Kind = "ClusterIssuer" then w.PodNamespace else obj.Namespace,
          ca.SecretName⟩]) ∧
    ((w.MetaNamespaceKeyFunc obj).2 = none →
      reads (GetCAs w obj s).calls =
        [⟨if obj.Kind = "ClusterIssuer" then w.PodNamespace else obj.Namespace,
          ca.SecretName⟩]) ∧
    (obj.Kind = "ClusterIssuer" → ∀ ns k k₁,
      k ∈ reads (GetCAs w obj s).calls →
      k₁ ∈ reads (GetCAs w { obj with Namespace := ns } s).calls →
      k = ⟨w.PodNamespace, ca.SecretName⟩ ∧ k₁ = k) ∧
    (obj.Kind ≠ "ClusterIssuer" → ∀ home k k₁,
      k ∈ reads (GetCAs w obj s).calls →
      k₁ ∈ reads (GetCAs { w with PodNamespace := home } obj s).calls →
      k = ⟨obj.Namespace, ca.SecretName⟩ ∧ k₁ = k) := by
  have hr := reads_GetCAs_of_issuer w obj s spec ca hissuer hca
  refine ⟨?_, ?_, ?_, ?_⟩
  · rw [hr]
    split
    · exact Or.inl rfl
    · exact Or.inr rfl
  · intro hkey
    rw [hr, hkey]
    rfl
  · intro hkind ns k k₁ hk hk₁
    have hr₁ := reads_GetCAs_of_issuer w { obj with Namespace := ns } s spec ca hissuer hca
    rw [hr] at hk
    rw [hr₁] at hk₁
    split at hk
    · cases hk
    · split at hk₁
      · cases hk₁
      · simp only [List.mem_singleton] at hk hk₁
        subst hk hk₁
        simp [secretRef, hkind]
  · intro hkind home k k₁ hk hk₁
    have hr₁ := reads_GetCAs_of_issuer { w with PodNamespace := home } obj s spec ca hissuer hca
    rw [hr] at hk
    rw [hr₁] at hk₁
    split at hk
    · cases hk
    · split at hk₁
      · cases hk₁
      · simp only [List.mem_singleton] at hk hk₁
        subst hk hk₁
        simp [secretRef, hkind]

/-- The witness of C4: a cluster issuer whose namespace field is filled in is
looked up in the pod namespace. -/
theorem secret_lookup_key_witness :
    reads (GetCAs sampleWorld { clusterIssuer "root-ca" with Namespace := "elsewhere" } "").calls =
      [⟨"cert-manager", "root-ca"⟩] :=
  (secret_lookup_key sampleWorld { clusterIssuer "root-ca" with Namespace := "elsewhere" } ""
    ⟨some ⟨"root-ca"⟩⟩ ⟨"root-ca"⟩ rfl rfl).2.1 (by decide)

/-- C5: for every issuer whose spec has no CA reference, `GetCAs` returns the
nil slice and the no-CA error with the kind and the key of the issuer, and
calls neither the reader nor the decoder. The key function is any that returns
the nil error, as that of client-go does for every `client.Object`. -/
theorem GetCAs_no_CA (w : World) (keyOf : Object → String) (obj : Object) (s : String)
    (spec : IssuerSpec) (hissuer : obj.genericIssuer = some spec) (hca : spec.CA = none) :
    (GetCAs { w with MetaNamespaceKeyFunc := fun o => (keyOf o, none) } obj s).certs = none ∧
    (GetCAs { w with MetaNamespaceKeyFunc := fun o => (keyOf o, none) } obj s).err =
      some (.errorf "%s %s does not have a CA" [.str obj.Kind, .str (keyOf obj)]) ∧
    reads (GetCAs { w with MetaNamespaceKeyFunc := fun o => (keyOf o, none) } obj s).calls = [] ∧
    (GetCAs { w with MetaNamespaceKeyFunc := fun o => (keyOf o, none) } obj s).calls = [] := by
  simp [GetCAs, hissuer, hca, reads]

/-- The witness of C5: two issuers without a CA reference, the second without
a name, under the key function of client-go. -/
theorem GetCAs_no_CA_witness :
    ((GetCAs sampleWorld acmeIssuer "").certs = none ∧
      (GetCAs sampleWorld acmeIssuer "").err =
        some (.errorf "%s %s does not have a CA" [.str "Issuer", .str "default/acme"]) ∧
      reads (GetCAs sampleWorld acmeIssuer "").calls = [] ∧
      (GetCAs sampleWorld acmeIssuer "").calls = []) ∧
    ((GetCAs sampleWorld unnamedAcmeIssuer "").certs = none ∧
      (GetCAs sampleWorld unnamedAcmeIssuer "").err =
        some (.errorf "%s %s does not have a CA" [.str "Issuer", .str "default/"]) ∧
      reads (GetCAs sampleWorld unnamedAcmeIssuer "").calls = [] ∧
      (GetCAs sampleWorld unnamedAcmeIssuer "").calls = []) :=
  ⟨GetCAs_no_CA sampleWorld (fun o => (MetaNamespaceKeyFunc o).1) acmeIssuer "" ⟨none⟩ rfl rfl,
    GetCAs_no_CA sampleWorld (fun o => (MetaNamespaceKeyFunc o).1) unnamedAcmeIssuer ""
      ⟨none⟩ rfl rfl⟩

/-- C6: for every object whose `GenericIssuer` assertion fails, `GetCAs` returns
the nil slice and the not-an-issuer error with the kind and the key of the
object, and calls neither the reader nor the decoder. The key function is any
that returns the nil error, as that of client-go does for every
`client.Object`. -/
theorem GetCAs_not_an_issuer (w : World) (keyOf : Object → String) (obj : Object) (s : String)
    (hissuer : obj.genericIssuer = none) :
    (GetCAs { w with MetaNamespaceKeyFunc := fun o => (keyOf o, none) } obj s).certs = none ∧
    (GetCAs { w with MetaNamespaceKeyFunc := fun o => (keyOf o, none) } obj s).err =
      some (.errorf "%s %s is not a GenericIssuer" [.str obj.Kind, .str (keyOf obj)]) ∧
    reads (GetCAs { w with MetaNamespaceKeyFunc := fun o => (keyOf o, none) } obj s).calls = [] ∧
    (GetCAs { w with MetaNamespaceKeyFunc := fun o => (keyOf o, none) } obj s).calls = [] := by
  simp [GetCAs, hissuer, reads]

/-- The witness of C6: two config maps, the second without a name, under the
key function of client-go. -/
theorem GetCAs_not_an_issuer_witness :
    ((GetCAs sampleWorld configMap "").certs = none ∧
      (GetCAs sampleWorld configMap "").err =
        some (.errorf "%s %s is not a GenericIssuer"
          [.str "ConfigMap", .str "default/settings"]) ∧
      reads (GetCAs sampleWorld configMap "").calls = [] ∧
      (GetCAs sampleWorld configMap "").calls = []) ∧
    ((GetCAs sampleWorld unnamedConfigMap "").certs = none ∧
      (GetCAs sampleWorld unnamedConfigMap "").err =
        some (.errorf "%s %s is not a GenericIssuer" [.str "ConfigMap", .str "default/"]) ∧
      reads (GetCAs sampleWorld unnamedConfigMap "").calls = [] ∧
      (GetCAs sampleWorld unnamedConfigMap "").calls = []) :=
  ⟨GetCAs_not_an_issuer sampleWorld (fun o => (MetaNamespaceKeyFunc o).1) configMap "" rfl,
    GetCAs_not_an_issuer sampleWorld (fun o => (MetaNamespaceKeyFunc o).1) unnamedConfigMap ""
      rfl⟩

/-- C7: in a run that reaches the decoder with the payload `data`: when the
decoder returns the nil error and no certificate, `GetCAs` returns the nil
slice and the not-a-CA error with the kind and the key, whatever the time is,
and that error is not the decoder's; when the decoder returns an error,
`GetCAs` returns the nil slice and that very error; and no run returns the
empty sequence. -/
theorem GetCAs_empty_bundle (w : World) (obj : Object) (s : String) (data : Bytes)
    (hreach : Call.parseRootCAs data ∈ (GetCAs w obj s).calls) :
    ((w.ParseRootCAs data).2 = none → (w.ParseRootCAs data).1.length = 0 →
      ∀ now,
        (GetCAs { w with now := now } obj s).certs = none ∧
        (GetCAs { w with now := now } obj s).err =
          some (.errorf "%s %s signing certificate is not a CA"
            [.str obj.Kind, .str (w.MetaNamespaceKeyFunc obj).1]) ∧
        (GetCAs { w with now := now } obj s).err ≠ (w.ParseRootCAs data).2) ∧
    (∀ e, (w.ParseRootCAs data).2 = some e →
      (GetCAs w obj s).certs = none ∧ (GetCAs w obj s).err = some e) ∧
    (GetCAs w obj s).certs ≠ some [] := by
  obtain ⟨spec, ca, hkey, hissuer, hca, hget, hdata⟩ := path_of_parse_called w obj s data hreach
  refine ⟨?_, ?_, ?_⟩
  · intro hperr hlen now
    have hrun := GetCAs_of_data { w with now := now } obj s spec ca data hkey hissuer hca hget hdata
    simp only [hperr, hlen] at hrun
    rw [hrun, hperr]
    simp
  · intro e hperr
    have hrun := GetCAs_of_data w obj s spec ca data hkey hissuer hca hget hdata
    rw [hrun, hperr]
    simp
  · intro hcerts
    rcases GetCAs_cases w obj s with ⟨_, hc⟩ | ⟨_, d, _, _, hne, _, hc⟩
    · rw [hc] at hcerts; cases hcerts
    · rw [hc] at hcerts
      exact hne (Option.some.inj hcerts)

/-- The witness of C7: a secret whose payload is empty and decodes to no
certificate. -/
theorem GetCAs_empty_bundle_witness :
    (GetCAs sampleWorld (clusterIssuer "empty") "").certs = none ∧
    (GetCAs sampleWorld (clusterIssuer "empty") "").err =
      some (.errorf "%s %s signing certificate is not a CA"
        [.str "ClusterIssuer", .str "ca-issuer"]) ∧
    (GetCAs sampleWorld (clusterIssuer "empty") "").err ≠ none :=
  (GetCAs_empty_bundle sampleWorld (clusterIssuer "empty") "" [] (by decide)).1
    (by decide) (by decide) 50

/-- C8: for an issuer with a CA reference whose secret is fetched with the nil
error: when the data map has no entry under `tls.crt`, `GetCAs` returns the nil
slice and the missing-key error with the field `tls.crt` and the key of the
secret, and does not call the decoder; when there is an entry, the empty one
included, the decoder is called with it. -/
theorem GetCAs_missing_field (w : World) (obj : Object) (s : String) (spec : IssuerSpec)
    (ca : CAIssuer) (secret : Secret)
    (hissuer : obj.genericIssuer = some spec) (hca : spec.CA = some ca)
    (hfetch : Call.readerGet (secretRef w obj ca) ∈ (GetCAs w obj s).calls)
    (hget : w.ReaderGet (secretRef w obj ca) = (secret, none)) :
    (secret.Data.lookup "tls.crt" = none →
      (GetCAs w obj s).certs = none ∧
      (GetCAs w obj s).err = some (.errorf "missing key %s in secret %s"
        [.str "tls.crt", .key ⟨(secretRef w obj ca).Namespace, ca.SecretName⟩]) ∧
      parses (GetCAs w obj s).calls = []) ∧
    (∀ data, secret.Data.lookup "tls.crt" = some data →
      parses (GetCAs w obj s).calls = [data]) ∧
    (secret.Data.lookup "tls.crt" = some [] → parses (GetCAs w obj s).calls = [[]]) := by
  obtain ⟨_, _, hkey, _, _, _⟩ := path_of_get_called w obj s _ hfetch
  have hparses : ∀ data, secret.Data.lookup "tls.crt" = some data →
      parses (GetCAs w obj s).calls = [data] := by
    intro data hdata
    have hrun := GetCAs_of_data w obj s spec ca data hkey hissuer hca (by rw [hget])
      (by rw [hget]; exact hdata)
    rw [hrun]
    split
    · simp [parses]
    · split
      · simp [parses]
      · split <;> simp [parses]
  refine ⟨?_, hparses, hparses []⟩
  intro hdata
  have hrun := GetCAs_of_missing_key w obj s spec ca hkey hissuer hca (by rw [hget])
    (by rw [hget]; exact hdata)
  rw [hrun]
  simp [parses, TLSCertKey, secretRef]

/-- The witness of C8: a secret that holds `tls.key` only. -/
theorem GetCAs_missing_field_witness :
    (GetCAs sampleWorld (clusterIssuer "no-crt") "").certs = none ∧
    (GetCAs sampleWorld (clusterIssuer "no-crt") "").err =
      some (.errorf "missing key %s in secret %s"
        [.str "tls.crt", .key ⟨"cert-manager", "no-crt"⟩]) ∧
    parses (GetCAs sampleWorld (clusterIssuer "no-crt") "").calls = [] :=
  (GetCAs_missing_field sampleWorld (clusterIssuer "no-crt") "" ⟨some ⟨"no-crt"⟩⟩ ⟨"no-crt"⟩
    ⟨[("tls.key", [9])]⟩ rfl rfl (by decide) (by decide)).1 (by decide)

/-- C9: for every issuer with a CA reference, `GetCAs` calls `Reader.Get`
exactly once; when that read returns an error, `GetCAs` returns the nil slice
and that very error, and makes no further call, a second read included. The
key function is any that returns the nil error, as that of client-go does for
every `client.Object`. -/
theorem GetCAs_single_read (w : World) (keyOf : Object → String) (obj : Object) (s : String)
    (spec : IssuerSpec) (ca : CAIssuer)
    (hissuer : obj.genericIssuer = some spec) (hca : spec.CA = some ca) :
    reads (GetCAs { w with MetaNamespaceKeyFunc := fun o => (keyOf o, none) } obj s).calls =
      [secretRef w obj ca] ∧
    (reads (GetCAs { w with MetaNamespaceKeyFunc := fun o => (keyOf o, none) } obj s).calls).length
      = 1 ∧
    (∀ e, (w.ReaderGet (secretRef w obj ca)).2 = some e →
      (GetCAs { w with MetaNamespaceKeyFunc := fun o => (keyOf o, none) } obj s).certs = none ∧
      (GetCAs { w with MetaNamespaceKeyFunc := fun o => (keyOf o, none) } obj s).err = some e ∧
      (GetCAs { w with MetaNamespaceKeyFunc := fun o => (keyOf o, none) } obj s).calls =
        [.readerGet (secretRef w obj ca)]) := by
  have hr := reads_GetCAs_of_issuer { w with MetaNamespaceKeyFunc := fun o => (keyOf o, none) }
    obj s spec ca hissuer hca
  have hreads :
      reads (GetCAs { w with MetaNamespaceKeyFunc := fun o => (keyOf o, none) } obj s).calls =
        [secretRef w obj ca] := by
    rw [hr]
    rfl
  refine ⟨hreads, by rw [hreads]; rfl, ?_⟩
  intro e hget
  rw [GetCAs_of_fetch_error { w with MetaNamespaceKeyFunc := fun o => (keyOf o, none) }
    obj s spec ca e rfl hissuer hca hget]
  exact ⟨rfl, rfl, rfl⟩

/-- The witness of C9: a secret that is not found is read once and its error
returned; an issuer without a name is read once as well. -/
theorem GetCAs_single_read_witness :
    (reads (GetCAs sampleWorld (namespacedIssuer "zzz") "").calls = [⟨"default", "zzz"⟩] ∧
      (GetCAs sampleWorld (namespacedIssuer "zzz") "").certs = none ∧
      (GetCAs sampleWorld (namespacedIssuer "zzz") "").err = some (.lib "not found") ∧
      (GetCAs sampleWorld (namespacedIssuer "zzz") "").calls =
        [.readerGet ⟨"default", "zzz"⟩]) ∧
    reads (GetCAs sampleWorld unnamedIssuer "").calls = [⟨"default", "root-ca"⟩] :=
  have h := GetCAs_single_read sampleWorld (fun o => (MetaNamespaceKeyFunc o).1)
    (namespacedIssuer "zzz") "" ⟨some ⟨"zzz"⟩⟩ ⟨"zzz"⟩ rfl rfl
  ⟨⟨h.1, h.2.2 (.lib "not found") (by decide)⟩,
    (GetCAs_single_read sampleWorld (fun o => (MetaNamespaceKeyFunc o).1) unnamedIssuer ""
      ⟨some ⟨"root-ca"⟩⟩ ⟨"root-ca"⟩ rfl rfl).1⟩

end Providers
